import Mathlib

/-!
Verification of the libdivecomputer core drivers against their natural-language
specification.  The development shallowly embeds three source files:

* `src/mares_darwinair.c` — the Variant A ring-buffer extractor (indexed
  logbook ring plus a separate profile ring);
* `src/suunto_common.c` — the Variant B extractor (single interleaved ring
  delimited by in-band markers);
* `src/oceanic_veo250.c` — the link protocol engine (ACK/NAK handshake with a
  bounded retry loop, additive page checksums, and the open-time
  initialization handshake).

A memory image is a total function from addresses to bytes (`Fin 256`), which
matches the C code's `unsigned char data[]` access pattern.  Loops are
embedded as structurally recursive functions whose fuel equals the C loop
bound.  Status codes mirror the `device_status_t` / `dc_status_t` values the
three files actually return.
-/

/-- A device memory image: address-indexed bytes (`unsigned char data[]`). -/
def Img : Type := Nat → Fin 256

/-- The status codes returned by the embedded code paths
(`device_status_t` / `dc_status_t` in the sources). -/
inductive DeviceStatus where
  | success
  | error
  | memory
  | typeMismatch
  | io
  | timeout
  | protocol
  | cancelled
  deriving DecidableEq

/-- `n` consecutive bytes of the image starting at address `a`
(the source of every `memcpy (…, data + a, n)` in the C code). -/
def readBytes (dat : Img) (a n : Nat) : List (Fin 256) :=
  (List.range n).map (fun k => dat (a + k))

/-- `array_uint16_be (data + o)`: big-endian 16-bit word at offset `o`. -/
def array_uint16_be (dat : Img) (o : Nat) : Nat :=
  (dat o).val * 256 + (dat (o + 1)).val

/-- A consumer that always asks to continue (`callback` returning nonzero). -/
def cbTrue : Nat → List (Fin 256) → Bool := fun _ _ => true

/-! ## Mares Darwin Air (`src/mares_darwinair.c`) -/

/-- `mares_darwinair_layout_t` (lines 33–45 of `mares_darwinair.c`). -/
structure mares_darwinair_layout_t where
  memsize : Nat
  rb_logbook_offset : Nat
  rb_logbook_size : Nat
  rb_logbook_count : Nat
  rb_profile_begin : Nat
  rb_profile_end : Nat
  samplesize : Nat

/-- The static layout constant for the Darwin Air (lines 69–77). -/
def mares_darwinair_layout : mares_darwinair_layout_t :=
  { memsize := 0x4000
    rb_logbook_offset := 0x0100
    rb_logbook_size := 60
    rb_logbook_count := 50
    rb_profile_begin := 0x0CC0
    rb_profile_end := 0x3FFF
    samplesize := 3 }

/-- Offset of the logbook entry visited at loop iteration `i`
(lines 283–284: `idx = (count + last - i) % count; offset = base + idx*size`). -/
def lbOffset (l : mares_darwinair_layout_t) (last i : Nat) : Nat :=
  l.rb_logbook_offset +
    ((l.rb_logbook_count + last - i) % l.rb_logbook_count) * l.rb_logbook_size

/-- Sample count of the logbook entry visited at iteration `i`
(line 287: `nsamples = array_uint16_be (data + offset + 6)`). -/
def maresNsamples (l : mares_darwinair_layout_t) (dat : Img) (last i : Nat) : Nat :=
  array_uint16_be dat (lbOffset l last i + 6)

/-- Profile length of the dive at iteration `i`
(line 288: `length = nsamples * samplesize`). -/
def diveLength (l : mares_darwinair_layout_t) (dat : Img) (last i : Nat) : Nat :=
  maresNsamples l dat last i * l.samplesize

/-- The profile bytes copied for the dive at iteration `i` with ring cursor
`cur` (lines 296–305).  When the span would cross `rb_profile_begin` going
backward the copy is split: `b` bytes from the high end of the ring followed
by `a = cur - begin` bytes from `begin`; otherwise one contiguous copy of
`length` bytes ending at `cur`. -/
def maresProfile (l : mares_darwinair_layout_t) (dat : Img) (last i cur : Nat) :
    List (Fin 256) :=
  if cur < l.rb_profile_begin + diveLength l dat last i then
    readBytes dat
      (l.rb_profile_end - (diveLength l dat last i - (cur - l.rb_profile_begin)))
      (diveLength l dat last i - (cur - l.rb_profile_begin)) ++
    readBytes dat l.rb_profile_begin (cur - l.rb_profile_begin)
  else
    readBytes dat (cur - diveLength l dat last i) (diveLength l dat last i)

/-- The assembled dive record at iteration `i`: the 60-byte logbook slot
(line 293) followed by the profile bytes (lines 296–305). -/
def maresRecord (l : mares_darwinair_layout_t) (dat : Img) (last i cur : Nat) :
    List (Fin 256) :=
  readBytes dat (lbOffset l last i) l.rb_logbook_size ++ maresProfile l dat last i cur

/-- The ring cursor after consuming the dive at iteration `i`
(line 301: `current = rb_profile_end - b`, or line 304: `current -= length`). -/
def maresNext (l : mares_darwinair_layout_t) (dat : Img) (last i cur : Nat) : Nat :=
  if cur < l.rb_profile_begin + diveLength l dat last i then
    l.rb_profile_end - (diveLength l dat last i - (cur - l.rb_profile_begin))
  else
    cur - diveLength l dat last i

/-- The extraction loop of `mares_darwinair_extract_dives` (lines 281–318),
returning the list of records delivered to the callback, newest first.  The
fuel starts at `rb_logbook_count` and mirrors the loop bound `i < count`.
`fp` is the device's stored 6-byte fingerprint, `cb` the consumer (given the
number of records already delivered and the record), `last` the logbook index
read from the image, `rem`/`cur` the `remaining`/`current` cursor state.
The loop stops at the sentinel sample count `0xFFFF` or when
`length > remaining` (line 289), stops *before* delivering on a fingerprint
match (lines 307–310), and stops *after* delivering when the consumer
declines (lines 312–315). -/
def maresLoop (l : mares_darwinair_layout_t) (dat : Img) (fp : List (Fin 256))
    (cb : Nat → List (Fin 256) → Bool) (last : Nat) :
    Nat → Nat → Nat → Nat → Nat → List (List (Fin 256))
  | 0, _, _, _, _ => []
  | fuel + 1, i, rem, cur, d =>
    if maresNsamples l dat last i = 0xFFFF ∨ rem < diveLength l dat last i then
      []
    else if (maresRecord l dat last i cur).take 6 = fp then
      []
    else if cb d (maresRecord l dat last i cur) then
      maresRecord l dat last i cur ::
        maresLoop l dat fp cb last fuel (i + 1) (rem - diveLength l dat last i)
          (maresNext l dat last i cur) (d + 1)
    else
      [maresRecord l dat last i cur]

/-- `mares_darwinair_extract_dives` (lines 241–323): validate the end-of-profile
pointer (big-endian word at `0x8A`, lines 254–258) and the last logbook index
(byte at `0x8C`, lines 261–265), then run the loop with
`remaining = rb_profile_end - rb_profile_begin` and `current = eop`
(lines 278–281).  Returns the final status together with the records
delivered to the callback. -/
def mares_darwinair_extract_dives (l : mares_darwinair_layout_t) (dat : Img)
    (fp : List (Fin 256)) (cb : Nat → List (Fin 256) → Bool) :
    DeviceStatus × List (List (Fin 256)) :=
  if array_uint16_be dat 0x8A < l.rb_profile_begin ∨
      l.rb_profile_end ≤ array_uint16_be dat 0x8A then
    (.error, [])
  else if l.rb_logbook_count ≤ (dat 0x8C).val then
    (.error, [])
  else
    (.success,
      maresLoop l dat fp cb (dat 0x8C).val l.rb_logbook_count 0
        (l.rb_profile_end - l.rb_profile_begin) (array_uint16_be dat 0x8A) 0)

/-- The extraction loop with the fingerprint short-circuit and the consumer
removed: the full sequence of dive records present in the image, newest
first.  This is the reference run used to state the fingerprint claims; it
follows the same lines 281–318, with the stop conditions of lines 307–315
dropped. -/
def maresLoopAll (l : mares_darwinair_layout_t) (dat : Img) (last : Nat) :
    Nat → Nat → Nat → Nat → List (List (Fin 256))
  | 0, _, _, _ => []
  | fuel + 1, i, rem, cur =>
    if maresNsamples l dat last i = 0xFFFF ∨ rem < diveLength l dat last i then
      []
    else
      maresRecord l dat last i cur ::
        maresLoopAll l dat last fuel (i + 1) (rem - diveLength l dat last i)
          (maresNext l dat last i cur)

/-- All dive records present in an image (after the same validation as
`mares_darwinair_extract_dives`), newest first. -/
def mares_all_records (l : mares_darwinair_layout_t) (dat : Img) :
    List (List (Fin 256)) :=
  if array_uint16_be dat 0x8A < l.rb_profile_begin ∨
      l.rb_profile_end ≤ array_uint16_be dat 0x8A then
    []
  else if l.rb_logbook_count ≤ (dat 0x8C).val then
    []
  else
    maresLoopAll l dat (dat 0x8C).val l.rb_logbook_count 0
      (l.rb_profile_end - l.rb_profile_begin) (array_uint16_be dat 0x8A)

/-- `mares_darwinair_device_set_fingerprint` (lines 171–185): a 6-byte value
is stored, an empty value resets the stored fingerprint to six zero bytes
(the state `memset` establishes at open, line 105), any other length is an
error. -/
def mares_darwinair_device_set_fingerprint (data : List (Fin 256)) :
    Except DeviceStatus (List (Fin 256)) :=
  if data.length ≠ 0 ∧ data.length ≠ 6 then
    .error .error
  else if data.length ≠ 0 then
    .ok data
  else
    .ok (List.replicate 6 0)

/-- Truncation of a delivered-record list by a consumer: keep records while
the consumer continues, and keep (but stop after) the first record on which
it declines.  `d` is the number of records delivered before this list. -/
def stopCut (cb : Nat → List (Fin 256) → Bool) :
    Nat → List (List (Fin 256)) → List (List (Fin 256))
  | _, [] => []
  | d, r :: rest => if cb d r then r :: stopCut cb (d + 1) rest else [r]

/-- Total number of profile bytes in a delivered-record list (each record is
the 60-byte logbook slot plus its profile bytes). -/
def profSum (l : mares_darwinair_layout_t) (out : List (List (Fin 256))) : Nat :=
  (out.map (fun r => r.length - l.rb_logbook_size)).sum

/-- Agreement of two images on every address the Darwin Air extractor reads:
the control words at `0x8A`–`0x8C`, the logbook ring
`[0x0100, 0x0100 + 50*60)`, and the profile ring `[0x0CC0, 0x3FFF)`. -/
def maresAgree (d1 d2 : Img) : Prop :=
  ∀ a, ((0x8A ≤ a ∧ a ≤ 0x8C) ∨
        (0x0100 ≤ a ∧ a < 0x0100 + 50 * 60) ∨
        (0x0CC0 ≤ a ∧ a < 0x3FFF)) → d1 a = d2 a

/-! ## Suunto Variant B extractor (`src/suunto_common.c`) -/

/-- Modelled from the spec: `ringbuffer_decrement` lives in `ringbuffer.c`,
which is not among the sources; the spec describes it as stepping `delta`
positions further back through the ring `[rbegin, rend)`, wrapped. -/
def ringbuffer_decrement (a delta rbegin rend : Nat) : Nat :=
  rbegin + ((a - rbegin) + (rend - rbegin) - delta % (rend - rbegin)) % (rend - rbegin)

/-- Modelled from the spec: `ringbuffer_distance` lives in `ringbuffer.c`,
which is not among the sources; the spec describes the emitted span as the
forward distance from `a` to `b` around the ring `[rbegin, rend)`, split
across the wrap point when it crosses `rend`. -/
def ringbuffer_distance (a b rbegin rend : Nat) : Nat :=
  if a ≤ b then b - a else (rend - rbegin) - (a - b)

/-- One backward step of the Suunto cursor (lines 21–23:
`if (current == begin) current = end; current--`). -/
def suuntoStep (rbegin rend cur : Nat) : Nat :=
  if cur = rbegin then rend - 1 else cur - 1

/-- The record copied for the dive span `(cur, prev)` (lines 33–41): when the
span crosses `rend`, two contiguous copies (tail from `cur` to `rend`, head
from `rbegin`); otherwise one contiguous copy of `len` bytes from `cur`. -/
def suuntoRecord (dat : Img) (rbegin rend cur prev : Nat) : List (Fin 256) :=
  if rend < cur + ringbuffer_distance cur prev rbegin rend then
    readBytes dat cur (rend - cur) ++
    readBytes dat rbegin (cur + ringbuffer_distance cur prev rbegin rend - rend)
  else
    readBytes dat cur (ringbuffer_distance cur prev rbegin rend)

/-- The backward walk of `suunto_common_extract_dives` (lines 17–48), with
fuel `rend - rbegin` mirroring the loop bound `i < end - begin`.  Returns the
records passed to the callback together with the final cursor position (the
value the terminating assertion on line 50 inspects).  Note the source
invokes the callback but discards its return value (line 44), so `cb` does
not influence the walk. -/
def suuntoLoop (dat : Img) (rbegin rend peek : Nat) (cb : List (Fin 256) → Bool) :
    Nat → Nat → Nat → List (List (Fin 256)) × Nat
  | 0, cur, _ => ([], cur)
  | fuel + 1, cur, prev =>
    if dat (suuntoStep rbegin rend cur) = 0x82 then
      ([], suuntoStep rbegin rend cur)
    else if dat (ringbuffer_decrement (suuntoStep rbegin rend cur) peek rbegin rend) = 0x80 then
      (suuntoRecord dat rbegin rend (suuntoStep rbegin rend cur) prev ::
        (suuntoLoop dat rbegin rend peek cb fuel (suuntoStep rbegin rend cur)
          (suuntoStep rbegin rend cur)).1,
       (suuntoLoop dat rbegin rend peek cb fuel (suuntoStep rbegin rend cur)
          (suuntoStep rbegin rend cur)).2)
    else
      suuntoLoop dat rbegin rend peek cb fuel (suuntoStep rbegin rend cur) prev

/-- `suunto_common_extract_dives` (lines 8–53): start the backward walk at
`current = previous = eop` with fuel `end - begin`.  The function's
preconditions (`begin ≤ eop < end`, `data[eop] == 0x82`, the working buffer
holding `end - begin` bytes) are the assertions on lines 11–15 and appear as
hypotheses of the theorems below. -/
def suunto_common_extract_dives (dat : Img) (rbegin rend eop peek : Nat)
    (cb : List (Fin 256) → Bool) : List (List (Fin 256)) × Nat :=
  suuntoLoop dat rbegin rend peek cb (rend - rbegin) eop eop

/-! ## Oceanic Veo 250 link protocol (`src/oceanic_veo250.c`) -/

/-- `MAXRETRIES` (line 36). -/
def MAXRETRIES : Nat := 2

/-- The handshake retry loop of `oceanic_veo250_transfer` (lines 140–152).
`send a` is the outcome the environment produces for the `a`-th call of
`oceanic_veo250_send` (0-based); `k` is the number of retries still allowed
(`MAXRETRIES - nretries`).  Returns the final status, the number of send
attempts performed, and the list of inter-attempt sleep durations in
milliseconds (line 151: `dc_serial_sleep (device->port, 100)`).  A success
exits the loop; a failure other than timeout or protocol returns immediately
(lines 143–144); a retryable failure with no retries left returns that
failure (lines 147–148). -/
def transferLoop (send : Nat → DeviceStatus) : Nat → Nat → DeviceStatus × Nat × List Nat
  | 0, attempt =>
    if send attempt = .success then (.success, attempt + 1, [])
    else if send attempt ≠ .timeout ∧ send attempt ≠ .protocol then
      (send attempt, attempt + 1, [])
    else
      (send attempt, attempt + 1, [])
  | k + 1, attempt =>
    if send attempt = .success then (.success, attempt + 1, [])
    else if send attempt ≠ .timeout ∧ send attempt ≠ .protocol then
      (send attempt, attempt + 1, [])
    else
      ((transferLoop send k (attempt + 1)).1,
       (transferLoop send k (attempt + 1)).2.1,
       100 :: (transferLoop send k (attempt + 1)).2.2)

/-- The handshake phase of `oceanic_veo250_transfer` (lines 128–152): the
retry loop entered with `nretries = 0`. -/
def oceanic_veo250_transfer_handshake (send : Nat → DeviceStatus) :
    DeviceStatus × Nat × List Nat :=
  transferLoop send MAXRETRIES 0

/-- Modelled from the spec: `checksum_add_uint8` lives in `checksum.c`, which
is not among the sources; the spec defines the page checksum as the unsigned
sum of the data bytes modulo 256, seeded at zero.  `Fin 256` addition is
exactly byte addition modulo 256. -/
def checksum_add_uint8 (data : List (Fin 256)) (init : Fin 256) : Fin 256 :=
  data.foldl (· + ·) init

/-- The per-page checksum verification of `oceanic_veo250_device_read`
(lines 443–449): recompute the additive checksum over the page's data bytes
and compare it with the trailing checksum byte `crc`; a mismatch is a
protocol error. -/
def oceanic_veo250_page_check (page : List (Fin 256)) (crc : Fin 256) : DeviceStatus :=
  if crc = checksum_add_uint8 page 0x00 then .success else .protocol

/-- The environment of one run of `oceanic_veo250_init`: the outcome of the
command write, the outcome of the 13-byte read, the number of bytes the read
produced, and the reply bytes. -/
structure InitEnv where
  write_status : DeviceStatus
  read_status : DeviceStatus
  read_n : Nat
  answer : List (Fin 256)

/-- The known PPS-mode reply template (lines 197–199). -/
def pps_response : List (Fin 256) :=
  [0x50, 0x50, 0x53, 0x2D, 0x2D, 0x4F, 0x4B, 0x5F, 0x56, 0x32, 0x2E, 0x30, 0x30]

/-- `oceanic_veo250_init` (lines 171–206): a failed write propagates; a failed
read is tolerated only when zero bytes arrived (lines 189–194); a received
reply that differs from the template is a protocol error (lines 196–203). -/
def oceanic_veo250_init (e : InitEnv) : DeviceStatus :=
  if e.write_status ≠ .success then e.write_status
  else if e.read_status ≠ .success then
    (if e.read_n = 0 then .success else e.read_status)
  else if e.answer ≠ pps_response then .protocol
  else .success

/-- Where `oceanic_veo250_device_open` goes after the initialization
handshake (lines 294–309): a non-success status from `oceanic_veo250_init`
jumps to `error_close` (the transport is closed and open fails with that
status); otherwise open proceeds to the version/identification command. -/
inductive OpenOutcome where
  | failedClosed (s : DeviceStatus)
  | proceededToVersion
  deriving DecidableEq

/-- The initialization-handshake step of `oceanic_veo250_device_open`
(lines 294–298). -/
def oceanic_veo250_open_handshake (e : InitEnv) : OpenOutcome :=
  match oceanic_veo250_init e with
  | .success => .proceededToVersion
  | s => .failedClosed s

/-- An all-zero image: its end-of-profile word is `0`, below the profile ring. -/
def imgZero : Img := fun _ => 0

/-- A run of `oceanic_veo250_init` in which the 13-byte reply is received
intact but does not match the template. -/
def envBadReply : InitEnv :=
  { write_status := .success
    read_status := .success
    read_n := 13
    answer := List.replicate 13 0 }

/-- A run of `oceanic_veo250_init` in which the read times out with no bytes
received at all. -/
def envNoReply : InitEnv :=
  { write_status := .success
    read_status := .timeout
    read_n := 0
    answer := List.replicate 13 0 }

/-- An environment whose send always fails with a protocol error (three
consecutive NAK handshakes). -/
def sendAllNak : Nat → DeviceStatus := fun _ => DeviceStatus.protocol

/-- An environment whose first send fails with an I/O error. -/
def sendIoErr : Nat → DeviceStatus := fun _ => DeviceStatus.io

/-- The number of backward one-byte steps (with `rbegin ↔ rend` wrap) needed
to move from `cur` to `eop`; a full revolution when `cur = eop`. -/
def suuntoStepsTo (rbegin rend eop cur : Nat) : Nat :=
  if eop < cur then cur - eop else cur + (rend - rbegin) - eop

/-- A concrete 16-byte marker-delimited ring: end-of-profile markers at
addresses 2 and 10, end-of-dive markers at 3 and 6, profile bytes elsewhere. -/
def sData : Img := fun a =>
  if a = 2 then 0x82
  else if a = 3 then 0x80
  else if a = 4 then 1
  else if a = 5 then 2
  else if a = 6 then 0x80
  else if a = 7 then 3
  else if a = 8 then 4
  else if a = 9 then 5
  else if a = 10 then 0x82
  else 0

/-- A concrete image for the short-circuit: two dives, `last = 1`; the newer
record (logbook slot 1 at `0x013C`, 2 samples) does not match the fingerprint
`[7,0,0,0,0,0]`, the older record (logbook slot 0 at `0x0100`, whose first
byte is 7, 1 sample) matches it; logbook slot 49 carries the sentinel. -/
def img2 : Img := fun a =>
  if a = 0x8A then 0x0C
  else if a = 0x8B then 0xD0
  else if a = 0x8C then 1
  else if a = 0x100 then 7
  else if a = 0x107 then 1
  else if a = 0x143 then 2
  else if a = 0xC82 then 0xFF
  else if a = 0xC83 then 0xFF
  else 0

/-- The fingerprint matching `img2`'s older record. -/
def fp7 : List (Fin 256) := [7, 0, 0, 0, 0, 0]

/-- The Scenario 1 image: end-of-profile pointer `0x0CC5`, last logbook
index `0`, entry 0 with sample count 10, entry 49 with the unused sentinel
sample count, all other bytes zero. -/
def img1 : Img := fun a =>
  if a = 0x8A then 0x0C
  else if a = 0x8B then 0xC5
  else if a = 0x107 then 0x0A
  else if a = 0xC82 then 0xFF
  else if a = 0xC83 then 0xFF
  else 0

/-- A fingerprint matching none of `img1`'s records. -/
def fp1 : List (Fin 256) := List.replicate 6 1

/-- `img1` with a nonzero first logbook byte, so that no record's leading
bytes equal the cleared fingerprint. -/
def img3 : Img := fun a => if a = 0x100 then 7 else img1 a

/-! ## Basic lemmas about the embedding -/

theorem readBytes_length (dat : Img) (a n : Nat) : (readBytes dat a n).length = n := by
  simp [readBytes]

theorem readBytes_take (dat : Img) (a n m : Nat) :
    (readBytes dat a n).take m = readBytes dat a (min m n) := by
  simp only [readBytes]
  rw [← List.map_take, List.take_range]

theorem readBytes_congr (d1 d2 : Img) (a n : Nat)
    (h : ∀ k, k < n → d1 (a + k) = d2 (a + k)) :
    readBytes d1 a n = readBytes d2 a n := by
  simp only [readBytes]
  refine List.map_congr_left ?_
  intro k hk
  exact h k (List.mem_range.mp hk)

theorem checksum_foldl (l : List (Fin 256)) (x : Fin 256) :
    checksum_add_uint8 l x = x + l.sum := by
  induction l generalizing x with
  | nil => simp [checksum_add_uint8]
  | cons a t ih =>
    simp only [checksum_add_uint8, List.foldl_cons, List.sum_cons] at *
    rw [ih (x + a), add_assoc]

theorem sum_set_fin (l : List (Fin 256)) (i : Nat) (h : i < l.length) (b : Fin 256) :
    (l.set i b).sum = l.sum - l.get ⟨i, h⟩ + b := by
  induction l generalizing i with
  | nil => simp at h
  | cons a t ih =>
    cases i with
    | zero =>
      simp only [List.set, List.sum_cons, List.get]
      abel
    | succ j =>
      simp only [List.set, List.sum_cons, List.get]
      rw [ih j (by simpa using h)]
      abel

/-! ## C7: validation failures abort before any delivery -/

/-- C7.  If the end-of-profile pointer read from the image lies outside
`[rb_profile_begin, rb_profile_end)`, or the last logbook index read from the
image is at least `rb_logbook_count`, then `mares_darwinair_extract_dives`
fails (the `DEVICE_STATUS_ERROR` the source returns for ring corruption)
without delivering any record: the result carries an empty record list, so
the consumer is never invoked. -/
theorem mares_validation_rejects_before_delivery (dat : Img) (fp : List (Fin 256))
    (cb : Nat → List (Fin 256) → Bool)
    (h : array_uint16_be dat 0x8A < 0x0CC0 ∨ 0x3FFF ≤ array_uint16_be dat 0x8A ∨
         50 ≤ (dat 0x8C).val) :
    mares_darwinair_extract_dives mares_darwinair_layout dat fp cb =
      (DeviceStatus.error, []) := by
  unfold mares_darwinair_extract_dives
  simp only [mares_darwinair_layout]
  rcases h with h | h | h
  · rw [if_pos (Or.inl h)]
  · rw [if_pos (Or.inr h)]
  · by_cases h2 : array_uint16_be dat 0x8A < 0x0CC0 ∨ 0x3FFF ≤ array_uint16_be dat 0x8A
    · rw [if_pos h2]
    · rw [if_neg h2, if_pos h]

/-- Witness for C7 at a concrete corrupt image. -/
theorem mares_validation_rejects_before_delivery_witness :
    mares_darwinair_extract_dives mares_darwinair_layout imgZero [] cbTrue =
      (DeviceStatus.error, []) :=
  mares_validation_rejects_before_delivery imgZero [] cbTrue (by decide)

/-! ## C8: the init-handshake mismatch is fatal, not a warning -/

/-- C8 counterexample.  With left a reply that is received but mismatches the
template, `oceanic_veo250_device_open` does *not* continue to the
version/identification step: `oceanic_veo250_init` returns the protocol
error and open jumps to `error_close`, closing the transport.  This refutes
the claim that a mismatching handshake reply is a mere warning. -/
theorem veo250_init_mismatch_counterexample :
    oceanic_veo250_open_handshake envBadReply =
      OpenOutcome.failedClosed DeviceStatus.protocol ∧
    OpenOutcome.failedClosed DeviceStatus.protocol ≠ OpenOutcome.proceededToVersion := by
  constructor
  · decide
  · decide

/-- C8 as amended.  During open, a handshake reply that is received but does
not match the known template is fatal: `oceanic_veo250_init` returns
ProtocolError and open fails and closes the transport.  Only a reply that is
entirely absent (the read fails having produced zero bytes) is tolerated, in
which case open proceeds to the version/identification step. -/
theorem veo250_init_mismatch_is_fatal (e : InitEnv)
    (hw : e.write_status = DeviceStatus.success) :
    (e.read_status = DeviceStatus.success → e.answer ≠ pps_response →
      oceanic_veo250_open_handshake e =
        OpenOutcome.failedClosed DeviceStatus.protocol) ∧
    (e.read_status ≠ DeviceStatus.success → e.read_n = 0 →
      oceanic_veo250_open_handshake e = OpenOutcome.proceededToVersion) := by
  constructor
  · intro hr hm
    simp [oceanic_veo250_open_handshake, oceanic_veo250_init, hw, hr, hm]
  · intro hr hn
    simp [oceanic_veo250_open_handshake, oceanic_veo250_init, hw, hr, hn]

/-- Witness for C8 (amended): one mismatching run fails and closes, one
zero-byte run proceeds. -/
theorem veo250_init_mismatch_is_fatal_witness :
    oceanic_veo250_open_handshake envBadReply =
      OpenOutcome.failedClosed DeviceStatus.protocol ∧
    oceanic_veo250_open_handshake envNoReply = OpenOutcome.proceededToVersion := by
  constructor
  · exact (veo250_init_mismatch_is_fatal envBadReply (by decide)).1 (by decide) (by decide)
  · exact (veo250_init_mismatch_is_fatal envNoReply (by decide)).2 (by decide) (by decide)

/-! ## C6: checksum round-trip -/

/-- C6.  For every page, appending the additive checksum computed over its
data bytes yields a payload that the reader's per-page verification accepts,
and replacing any single data byte with a different value makes the
verification reject the page with a protocol error. -/
theorem veo250_checksum_roundtrip (page : List (Fin 256)) :
    oceanic_veo250_page_check page (checksum_add_uint8 page 0x00) =
      DeviceStatus.success ∧
    (∀ i (hi : i < page.length) (b : Fin 256), b ≠ page.get ⟨i, hi⟩ →
      oceanic_veo250_page_check (page.set i b) (checksum_add_uint8 page 0x00) =
        DeviceStatus.protocol) := by
  constructor
  · simp [oceanic_veo250_page_check]
  · intro i hi b hb
    unfold oceanic_veo250_page_check
    rw [if_neg]
    intro hcond
    rw [checksum_foldl, checksum_foldl, zero_add, zero_add,
      sum_set_fin page i hi b] at hcond
    exact hb (by linear_combination -hcond)

/-- Witness for C6 at a concrete page and byte flip. -/
theorem veo250_checksum_roundtrip_witness :
    oceanic_veo250_page_check [1, 2, 3] (checksum_add_uint8 [1, 2, 3] 0x00) =
      DeviceStatus.success ∧
    oceanic_veo250_page_check (List.set [1, 2, 3] 0 5)
      (checksum_add_uint8 [1, 2, 3] 0x00) = DeviceStatus.protocol := by
  refine ⟨(veo250_checksum_roundtrip [1, 2, 3]).1, ?_⟩
  exact (veo250_checksum_roundtrip [1, 2, 3]).2 0 (by decide) 5 (by decide)

/-! ## C2: bounded handshake retry -/

theorem transferLoop_attempts_le (send : Nat → DeviceStatus) :
    ∀ k a, (transferLoop send k a).2.1 ≤ a + k + 1 := by
  intro k
  induction k with
  | zero =>
    intro a
    rw [transferLoop]
    split_ifs <;> simp
  | succ k ih =>
    intro a
    rw [transferLoop]
    split_ifs
    · simp
    · simp
    · have h := ih (a + 1)
      simp only []
      omega

/-- C2.  The handshake phase of `oceanic_veo250_transfer`:
(1) for every environment, it performs at most `MAXRETRIES + 1 = 3` send
attempts; (2) when three consecutive attempts fail with a retryable status
(Timeout or ProtocolError), it performs exactly three attempts, sleeps the
fixed 100 ms backoff between consecutive attempts, and surfaces the third
attempt's retryable error; (3) a failure that is neither Timeout nor
ProtocolError (for example an I/O error or cancellation), arising at any
attempt, propagates immediately: no further attempt and no further sleep
happen after it. -/
theorem veo250_transfer_retry_bound (send : Nat → DeviceStatus) :
    (oceanic_veo250_transfer_handshake send).2.1 ≤ MAXRETRIES + 1 ∧
    ((∀ j, j < MAXRETRIES + 1 →
        send j = DeviceStatus.timeout ∨ send j = DeviceStatus.protocol) →
      oceanic_veo250_transfer_handshake send =
        (send MAXRETRIES, MAXRETRIES + 1, [100, 100])) ∧
    (∀ j, j < MAXRETRIES + 1 →
      (∀ i, i < j → send i = DeviceStatus.timeout ∨ send i = DeviceStatus.protocol) →
      send j ≠ DeviceStatus.success → send j ≠ DeviceStatus.timeout →
      send j ≠ DeviceStatus.protocol →
      oceanic_veo250_transfer_handshake send =
        (send j, j + 1, List.replicate j 100)) := by
  refine ⟨?_, ?_, ?_⟩
  · have h := transferLoop_attempts_le send MAXRETRIES 0
    simpa [oceanic_veo250_transfer_handshake] using h
  · intro h
    have h0 := h 0 (by simp [MAXRETRIES])
    have h1 := h 1 (by simp [MAXRETRIES])
    have h2 := h 2 (by simp [MAXRETRIES])
    have hn0 : send 0 ≠ DeviceStatus.success := by
      rcases h0 with h | h <;> simp [h]
    have hn1 : send 1 ≠ DeviceStatus.success := by
      rcases h1 with h | h <;> simp [h]
    have hn2 : send 2 ≠ DeviceStatus.success := by
      rcases h2 with h | h <;> simp [h]
    have hr0 : ¬(send 0 ≠ DeviceStatus.timeout ∧ send 0 ≠ DeviceStatus.protocol) := by
      rcases h0 with h | h <;> simp [h]
    have hr1 : ¬(send 1 ≠ DeviceStatus.timeout ∧ send 1 ≠ DeviceStatus.protocol) := by
      rcases h1 with h | h <;> simp [h]
    have hr2 : ¬(send 2 ≠ DeviceStatus.timeout ∧ send 2 ≠ DeviceStatus.protocol) := by
      rcases h2 with h | h <;> simp [h]
    simp [oceanic_veo250_transfer_handshake, MAXRETRIES, transferLoop,
      hn0, hn1, hn2, hr0, hr1, hr2]
  · intro j hj hprev hs ht hp
    simp only [MAXRETRIES] at hj
    interval_cases j
    · simp [oceanic_veo250_transfer_handshake, MAXRETRIES, transferLoop, hs, ht, hp]
    · have h0 := hprev 0 (by omega)
      have hn0 : send 0 ≠ DeviceStatus.success := by
        rcases h0 with h | h <;> simp [h]
      have hr0 : ¬(send 0 ≠ DeviceStatus.timeout ∧ send 0 ≠ DeviceStatus.protocol) := by
        rcases h0 with h | h <;> simp [h]
      simp [oceanic_veo250_transfer_handshake, MAXRETRIES, transferLoop,
        hn0, hr0, hs, ht, hp, List.replicate]
    · have h0 := hprev 0 (by omega)
      have h1 := hprev 1 (by omega)
      have hn0 : send 0 ≠ DeviceStatus.success := by
        rcases h0 with h | h <;> simp [h]
      have hr0 : ¬(send 0 ≠ DeviceStatus.timeout ∧ send 0 ≠ DeviceStatus.protocol) := by
        rcases h0 with h | h <;> simp [h]
      have hn1 : send 1 ≠ DeviceStatus.success := by
        rcases h1 with h | h <;> simp [h]
      have hr1 : ¬(send 1 ≠ DeviceStatus.timeout ∧ send 1 ≠ DeviceStatus.protocol) := by
        rcases h1 with h | h <;> simp [h]
      simp [oceanic_veo250_transfer_handshake, MAXRETRIES, transferLoop,
        hn0, hr0, hn1, hr1, hs, ht, hp, List.replicate]

/-- Witness for C2: three NAKs surface the protocol error after exactly three
attempts with two 100 ms sleeps; an I/O failure propagates after one attempt. -/
theorem veo250_transfer_retry_bound_witness :
    (oceanic_veo250_transfer_handshake sendAllNak).2.1 ≤ MAXRETRIES + 1 ∧
    oceanic_veo250_transfer_handshake sendAllNak =
      (DeviceStatus.protocol, 3, [100, 100]) ∧
    oceanic_veo250_transfer_handshake sendIoErr = (DeviceStatus.io, 1, []) := by
  refine ⟨(veo250_transfer_retry_bound sendAllNak).1, ?_, ?_⟩
  · have h := (veo250_transfer_retry_bound sendAllNak).2.1 (by intro j hj; right; rfl)
    simpa [sendAllNak, MAXRETRIES] using h
  · have h := (veo250_transfer_retry_bound sendIoErr).2.2 0 (by omega)
      (by intro i hi; omega) (by decide) (by decide) (by decide)
    simpa [sendIoErr] using h

/-! ## C5: the Suunto backward walk always lands on an end-of-profile marker -/

theorem suuntoStep_bounds (rbegin rend cur : Nat) (_hbr : rbegin < rend)
    (h1 : rbegin ≤ cur) (h2 : cur < rend) :
    rbegin ≤ suuntoStep rbegin rend cur ∧ suuntoStep rbegin rend cur < rend := by
  unfold suuntoStep
  split_ifs with h
  · omega
  · omega

theorem suuntoStepsTo_pos (rbegin rend eop cur : Nat)
    (he1 : rbegin ≤ eop) (he2 : eop < rend) (h1 : rbegin ≤ cur) (h2 : cur < rend) :
    1 ≤ suuntoStepsTo rbegin rend eop cur := by
  unfold suuntoStepsTo
  split_ifs with h
  · omega
  · omega

theorem suuntoStepsTo_step (rbegin rend eop cur : Nat)
    (he1 : rbegin ≤ eop) (he2 : eop < rend) (h1 : rbegin ≤ cur) (h2 : cur < rend)
    (hne : suuntoStep rbegin rend cur ≠ eop) :
    suuntoStepsTo rbegin rend eop (suuntoStep rbegin rend cur) + 1 =
      suuntoStepsTo rbegin rend eop cur := by
  unfold suuntoStep at hne ⊢
  unfold suuntoStepsTo
  by_cases hc : cur = rbegin
  · rw [if_pos hc] at hne ⊢
    split_ifs <;> omega
  · rw [if_neg hc] at hne ⊢
    split_ifs <;> omega

theorem suuntoLoop_lands_on_marker (dat : Img) (rbegin rend eop peek : Nat)
    (cb : List (Fin 256) → Bool)
    (he1 : rbegin ≤ eop) (he2 : eop < rend) (hm : dat eop = 0x82) :
    ∀ fuel cur prev, rbegin ≤ cur → cur < rend →
      suuntoStepsTo rbegin rend eop cur ≤ fuel →
      dat (suuntoLoop dat rbegin rend peek cb fuel cur prev).2 = 0x82 := by
  intro fuel
  induction fuel with
  | zero =>
    intro cur prev h1 h2 hsteps
    have := suuntoStepsTo_pos rbegin rend eop cur he1 he2 h1 h2
    omega
  | succ fuel ih =>
    intro cur prev h1 h2 hsteps
    have hbr : rbegin < rend := by omega
    have hb := suuntoStep_bounds rbegin rend cur hbr h1 h2
    rw [suuntoLoop]
    by_cases hstop : dat (suuntoStep rbegin rend cur) = 0x82
    · rw [if_pos hstop]
      exact hstop
    · rw [if_neg hstop]
      have hne : suuntoStep rbegin rend cur ≠ eop := by
        intro he
        exact hstop (he ▸ hm)
      have hsteps2 : suuntoStepsTo rbegin rend eop (suuntoStep rbegin rend cur) ≤ fuel := by
        have := suuntoStepsTo_step rbegin rend eop cur he1 he2 h1 h2 hne
        omega
      by_cases hdive :
          dat (ringbuffer_decrement (suuntoStep rbegin rend cur) peek rbegin rend) = 0x80
      · rw [if_pos hdive]
        exact ih (suuntoStep rbegin rend cur) (suuntoStep rbegin rend cur) hb.1 hb.2 hsteps2
      · rw [if_neg hdive]
        exact ih (suuntoStep rbegin rend cur) prev hb.1 hb.2 hsteps2

/-- C5.  Under the Variant B preconditions (`begin ≤ eop < end`, the byte at
`eop` is the end-of-profile marker `0x82`, and `end - begin` fits the
`0x2000 - 0x4C`-byte working buffer), the backward walk of
`suunto_common_extract_dives` — whose fuel is exactly `end - begin`, so it
performs at most `end - begin` one-byte steps — always exits with the cursor
resting on a byte equal to `0x82`: the terminating assertion on line 50 of
`suunto_common.c` never fails. -/
theorem suunto_extract_lands_on_marker (dat : Img) (rbegin rend eop peek : Nat)
    (cb : List (Fin 256) → Bool)
    (he1 : rbegin ≤ eop) (he2 : eop < rend) (hm : dat eop = 0x82)
    (hbuf : rend - rbegin ≤ 0x2000 - 0x4C) :
    dat (suunto_common_extract_dives dat rbegin rend eop peek cb).2 = 0x82 := by
  unfold suunto_common_extract_dives
  apply suuntoLoop_lands_on_marker dat rbegin rend eop peek cb he1 he2 hm
    (rend - rbegin) eop eop he1 he2
  unfold suuntoStepsTo
  split_ifs with h
  · omega
  · omega

/-- Witness for C5 on the concrete ring. -/
theorem suunto_extract_lands_on_marker_witness :
    sData (suunto_common_extract_dives sData 0 16 10 2 (fun _ => true)).2 = 0x82 :=
  suunto_extract_lands_on_marker sData 0 16 10 2 (fun _ => true)
    (by decide) (by decide) (by decide) (by decide)

/-! ## Relating the extraction loop to the fingerprint-free reference run -/

theorem darwin_pb : mares_darwinair_layout.rb_profile_begin = 0x0CC0 := rfl

theorem darwin_pe : mares_darwinair_layout.rb_profile_end = 0x3FFF := rfl

theorem darwin_count : mares_darwinair_layout.rb_logbook_count = 50 := rfl

theorem darwin_lbsize : mares_darwinair_layout.rb_logbook_size = 60 := rfl

theorem darwin_lboff : mares_darwinair_layout.rb_logbook_offset = 0x0100 := rfl

theorem darwin_ss : mares_darwinair_layout.samplesize = 3 := rfl

/-- With an always-continuing consumer, the extraction loop delivers exactly
the longest fingerprint-free starting run of the reference sequence. -/
theorem maresLoop_cbTrue_takeWhile (l : mares_darwinair_layout_t) (dat : Img)
    (fp : List (Fin 256)) (last : Nat) :
    ∀ fuel i rem cur d,
      maresLoop l dat fp cbTrue last fuel i rem cur d =
        (maresLoopAll l dat last fuel i rem cur).takeWhile
          (fun r => decide (r.take 6 ≠ fp)) := by
  intro fuel
  induction fuel with
  | zero => intro i rem cur d; simp [maresLoop, maresLoopAll]
  | succ fuel ih =>
    intro i rem cur d
    rw [maresLoop, maresLoopAll]
    by_cases hs : maresNsamples l dat last i = 0xFFFF ∨ rem < diveLength l dat last i
    · rw [if_pos hs, if_pos hs]
      rfl
    · rw [if_neg hs, if_neg hs]
      by_cases hfp : (maresRecord l dat last i cur).take 6 = fp
      · rw [if_pos hfp]
        simp [List.takeWhile_cons, hfp]
      · rw [if_neg hfp]
        have hcb : cbTrue d (maresRecord l dat last i cur) = true := rfl
        rw [if_pos hcb, ih]
        simp [List.takeWhile_cons, hfp]

/-- The extraction loop with an arbitrary consumer is the always-continue run
truncated at the first record on which the consumer declines. -/
theorem maresLoop_cb_stopCut (l : mares_darwinair_layout_t) (dat : Img)
    (fp : List (Fin 256)) (cb : Nat → List (Fin 256) → Bool) (last : Nat) :
    ∀ fuel i rem cur d,
      maresLoop l dat fp cb last fuel i rem cur d =
        stopCut cb d (maresLoop l dat fp cbTrue last fuel i rem cur d) := by
  intro fuel
  induction fuel with
  | zero => intro i rem cur d; simp [maresLoop, stopCut]
  | succ fuel ih =>
    intro i rem cur d
    rw [maresLoop, maresLoop]
    by_cases hs : maresNsamples l dat last i = 0xFFFF ∨ rem < diveLength l dat last i
    · rw [if_pos hs, if_pos hs]
      rfl
    · rw [if_neg hs, if_neg hs]
      by_cases hfp : (maresRecord l dat last i cur).take 6 = fp
      · rw [if_pos hfp, if_pos hfp]
        rfl
      · rw [if_neg hfp, if_neg hfp]
        have hcb : cbTrue d (maresRecord l dat last i cur) = true := rfl
        rw [if_pos hcb]
        rw [stopCut]
        by_cases hc : cb d (maresRecord l dat last i cur)
        · rw [if_pos hc, if_pos hc, ih]
        · rw [if_neg hc, if_neg hc]

theorem takeWhile_eq_take_of_first_fail {α : Type} (p : α → Bool) :
    ∀ (L : List α) (N : Nat) (hN : N < L.length),
      (∀ i (hi : i < L.length), i < N → p (L.get ⟨i, hi⟩) = true) →
      p (L.get ⟨N, hN⟩) = false →
      L.takeWhile p = L.take N := by
  intro L
  induction L with
  | nil => intro N hN; simp at hN
  | cons a t ih =>
    intro N hN htrue hfail
    cases N with
    | zero =>
      rw [List.takeWhile_cons]
      simp only [List.get] at hfail
      rw [hfail]
      rfl
    | succ N =>
      have ha : p a = true := htrue 0 (by simp) (by omega)
      rw [List.takeWhile_cons, ha]
      simp only [if_true, List.take_succ_cons]
      congr 1
      exact ih N (by simpa using hN)
        (fun i hi hlt => htrue (i + 1) (by simpa using hi) (by omega)) hfail

theorem stopCut_eq_take (cb : Nat → List (Fin 256) → Bool) :
    ∀ (L : List (List (Fin 256))) (d k : Nat) (hk : k < L.length),
      (∀ i (hi : i < L.length), i < k → cb (d + i) (L.get ⟨i, hi⟩) = true) →
      cb (d + k) (L.get ⟨k, hk⟩) = false →
      stopCut cb d L = L.take (k + 1) := by
  intro L
  induction L with
  | nil => intro d k hk; simp at hk
  | cons a t ih =>
    intro d k hk htrue hfail
    cases k with
    | zero =>
      have hf : cb d a = false := by simpa using hfail
      rw [stopCut, if_neg (by simp [hf])]
      rfl
    | succ k =>
      have ha : cb d a = true := by
        have := htrue 0 (by simp) (by omega)
        simpa using this
      rw [stopCut, if_pos ha]
      simp only [List.take_succ_cons]
      congr 1
      refine ih (d + 1) k (by simpa using hk) ?_ ?_
      · intro i hi hlt
        have := htrue (i + 1) (by simpa using hi) (by omega)
        simpa [Nat.add_assoc, Nat.add_comm 1 i] using this
      · have h2 := hfail
        rw [show d + (k + 1) = d + 1 + k by omega] at h2
        exact h2

theorem takeWhile_eq_self_of {α : Type} (p : α → Bool) (L : List α)
    (h : ∀ r ∈ L, p r = true) : L.takeWhile p = L :=
  List.takeWhile_eq_self_iff.mpr h

/-! ## C3: fingerprint short-circuit -/

/-- C3.  For every image that passes validation and every stored fingerprint:
if the record at position `N` of the reference sequence (walking
newest-to-oldest) has its leading fingerprint-length bytes equal to the
stored fingerprint, and no earlier record does, then
`mares_darwinair_extract_dives` delivers exactly the records `0 .. N-1`
newest-first, does not deliver record `N` or anything older, and returns
success. -/
theorem mares_fingerprint_shortcircuit (dat : Img) (fp : List (Fin 256)) (N : Nat)
    (hv1 : 0x0CC0 ≤ array_uint16_be dat 0x8A)
    (hv2 : array_uint16_be dat 0x8A < 0x3FFF)
    (hv3 : (dat 0x8C).val < 50)
    (hN : N < (mares_all_records mares_darwinair_layout dat).length)
    (hmatch : ((mares_all_records mares_darwinair_layout dat).get ⟨N, hN⟩).take 6 = fp)
    (hbefore : ∀ i (hi : i < (mares_all_records mares_darwinair_layout dat).length),
      i < N → ((mares_all_records mares_darwinair_layout dat).get ⟨i, hi⟩).take 6 ≠ fp) :
    mares_darwinair_extract_dives mares_darwinair_layout dat fp cbTrue =
      (DeviceStatus.success, (mares_all_records mares_darwinair_layout dat).take N) := by
  have hcond1 : ¬(array_uint16_be dat 0x8A < mares_darwinair_layout.rb_profile_begin ∨
      mares_darwinair_layout.rb_profile_end ≤ array_uint16_be dat 0x8A) := by
    rw [darwin_pb, darwin_pe]
    omega
  have hcond2 : ¬(mares_darwinair_layout.rb_logbook_count ≤ (dat 0x8C).val) := by
    rw [darwin_count]
    omega
  have hall : mares_all_records mares_darwinair_layout dat =
      maresLoopAll mares_darwinair_layout dat (dat 0x8C).val
        mares_darwinair_layout.rb_logbook_count 0
        (mares_darwinair_layout.rb_profile_end - mares_darwinair_layout.rb_profile_begin)
        (array_uint16_be dat 0x8A) := by
    unfold mares_all_records
    rw [if_neg hcond1, if_neg hcond2]
  unfold mares_darwinair_extract_dives
  rw [if_neg hcond1, if_neg hcond2]
  rw [maresLoop_cbTrue_takeWhile, ← hall]
  congr 1
  refine takeWhile_eq_take_of_first_fail _ _ N hN ?_ ?_
  · intro i hi hlt
    simpa using hbefore i hi hlt
  · simpa using hmatch

/-- Witness for C3: on `img2` with fingerprint `fp7`, extraction delivers
exactly the one record newer than the match. -/
theorem mares_fingerprint_shortcircuit_witness :
    mares_darwinair_extract_dives mares_darwinair_layout img2 fp7 cbTrue =
      (DeviceStatus.success, (mares_all_records mares_darwinair_layout img2).take 1) :=
  mares_fingerprint_shortcircuit img2 fp7 1
    (by decide) (by decide) (by decide) (by decide) (by decide)
    (by decide)

/-! ## C4: the cleared fingerprint is six zero bytes, not a disabled compare -/

/-- C4 counterexample.  On `img1` — whose single dive record's leading six
bytes are all zero — extraction with the default/cleared fingerprint (the six
zero bytes `memset` and `set_fingerprint` with an empty value install)
delivers *no* record, even though the image contains one dive record (which a
non-matching fingerprint does deliver).  The default fingerprint is compared
like any other, so the claim that a cleared fingerprint never stops
extraction early is false. -/
theorem mares_default_fingerprint_stops_on_zero_record :
    mares_darwinair_extract_dives mares_darwinair_layout img1
      (List.replicate 6 0) cbTrue = (DeviceStatus.success, []) ∧
    mares_all_records mares_darwinair_layout img1 ≠ [] ∧
    (mares_darwinair_extract_dives mares_darwinair_layout img1 fp1 cbTrue).2.length = 1 := by
  refine ⟨by decide, by decide, by decide⟩

/-- C4 as amended.  Clearing the fingerprint stores six zero bytes, and
extraction with the default/cleared fingerprint delivers every dive record
present in the image *provided* no assembled record's leading six bytes are
all zero; a record whose leading six bytes are all zero stops extraction
early exactly like a genuine fingerprint match. -/
theorem mares_default_fingerprint_extracts_all (dat : Img)
    (hv1 : 0x0CC0 ≤ array_uint16_be dat 0x8A)
    (hv2 : array_uint16_be dat 0x8A < 0x3FFF)
    (hv3 : (dat 0x8C).val < 50)
    (hzero : ∀ r ∈ mares_all_records mares_darwinair_layout dat,
      r.take 6 ≠ List.replicate 6 0) :
    mares_darwinair_device_set_fingerprint [] = .ok (List.replicate 6 0) ∧
    mares_darwinair_extract_dives mares_darwinair_layout dat
      (List.replicate 6 0) cbTrue =
      (DeviceStatus.success, mares_all_records mares_darwinair_layout dat) := by
  constructor
  · rfl
  · have hcond1 : ¬(array_uint16_be dat 0x8A < mares_darwinair_layout.rb_profile_begin ∨
        mares_darwinair_layout.rb_profile_end ≤ array_uint16_be dat 0x8A) := by
      rw [darwin_pb, darwin_pe]
      omega
    have hcond2 : ¬(mares_darwinair_layout.rb_logbook_count ≤ (dat 0x8C).val) := by
      rw [darwin_count]
      omega
    have hall : mares_all_records mares_darwinair_layout dat =
        maresLoopAll mares_darwinair_layout dat (dat 0x8C).val
          mares_darwinair_layout.rb_logbook_count 0
          (mares_darwinair_layout.rb_profile_end - mares_darwinair_layout.rb_profile_begin)
          (array_uint16_be dat 0x8A) := by
      unfold mares_all_records
      rw [if_neg hcond1, if_neg hcond2]
    unfold mares_darwinair_extract_dives
    rw [if_neg hcond1, if_neg hcond2]
    rw [maresLoop_cbTrue_takeWhile, ← hall]
    congr 1
    refine takeWhile_eq_self_of _ _ ?_
    intro r hr
    simpa using hzero r hr

/-- Witness for C4 (amended) on `img3`, whose single record has a nonzero
leading byte. -/
theorem mares_default_fingerprint_extracts_all_witness :
    mares_darwinair_device_set_fingerprint [] = .ok (List.replicate 6 0) ∧
    mares_darwinair_extract_dives mares_darwinair_layout img3
      (List.replicate 6 0) cbTrue =
      (DeviceStatus.success, mares_all_records mares_darwinair_layout img3) :=
  mares_default_fingerprint_extracts_all img3 (by decide) (by decide) (by decide)
    (by decide)

/-! ## C9: consumer-requested stop -/

/-- C9 counterexample.  The Variant B extractor (`suunto_common_extract_dives`)
invokes the callback but ignores its return value (line 44 of
`suunto_common.c`): on the concrete ring `sData` a consumer that requests
stop on every record still receives two records, so the claim that every
extraction pass halts immediately on a stop decision is false. -/
theorem suunto_ignores_consumer_stop :
    (suunto_common_extract_dives sData 0 16 10 2 (fun _ => false)).1 =
      [[4, 5], [2, 0x80, 3]] ∧
    (suunto_common_extract_dives sData 0 16 10 2 (fun _ => false)).1.length ≠ 1 := by
  refine ⟨by decide, by decide⟩

/-- C9 as amended.  In the Mares Darwin Air extractor, a stop decision is
honoured immediately: if the consumer continues on the first `k` records of
the reference (always-continue) run and declines on record `k`, the
extraction delivers exactly records `0 .. k` (the stop record was already
handed to the callback) and returns success, assembling and delivering
nothing after it.  The Suunto Variant B extractor instead discards the
consumer's decision (see the counterexample). -/
theorem mares_consumer_stop_halts (dat : Img) (fp : List (Fin 256))
    (cb : Nat → List (Fin 256) → Bool) (k : Nat)
    (hsucc : (mares_darwinair_extract_dives mares_darwinair_layout dat fp cbTrue).1 =
      DeviceStatus.success)
    (hk : k < (mares_darwinair_extract_dives mares_darwinair_layout dat fp cbTrue).2.length)
    (hcont : ∀ i (hi : i <
        (mares_darwinair_extract_dives mares_darwinair_layout dat fp cbTrue).2.length),
      i < k →
      cb i ((mares_darwinair_extract_dives mares_darwinair_layout dat fp cbTrue).2.get
        ⟨i, hi⟩) = true)
    (hstop : cb k ((mares_darwinair_extract_dives mares_darwinair_layout dat fp cbTrue).2.get
      ⟨k, hk⟩) = false) :
    mares_darwinair_extract_dives mares_darwinair_layout dat fp cb =
      (DeviceStatus.success,
        (mares_darwinair_extract_dives mares_darwinair_layout dat fp cbTrue).2.take (k + 1)) := by
  by_cases hcond1 : (array_uint16_be dat 0x8A < mares_darwinair_layout.rb_profile_begin ∨
      mares_darwinair_layout.rb_profile_end ≤ array_uint16_be dat 0x8A)
  · unfold mares_darwinair_extract_dives at hsucc
    rw [if_pos hcond1] at hsucc
    exact absurd hsucc (by decide)
  by_cases hcond2 : (mares_darwinair_layout.rb_logbook_count ≤ (dat 0x8C).val)
  · unfold mares_darwinair_extract_dives at hsucc
    rw [if_neg hcond1, if_pos hcond2] at hsucc
    exact absurd hsucc (by decide)
  have hL2 : (mares_darwinair_extract_dives mares_darwinair_layout dat fp cbTrue).2 =
      maresLoop mares_darwinair_layout dat fp cbTrue (dat 0x8C).val
        mares_darwinair_layout.rb_logbook_count 0
        (mares_darwinair_layout.rb_profile_end - mares_darwinair_layout.rb_profile_begin)
        (array_uint16_be dat 0x8A) 0 := by
    unfold mares_darwinair_extract_dives
    rw [if_neg hcond1, if_neg hcond2]
  conv_lhs => unfold mares_darwinair_extract_dives
  rw [if_neg hcond1, if_neg hcond2]
  rw [maresLoop_cb_stopCut, ← hL2]
  congr 1
  refine stopCut_eq_take cb _ 0 k hk ?_ ?_
  · intro i hi hlt
    simpa using hcont i hi hlt
  · simpa using hstop

/-- Witness for C9 (amended): on `img2` with the never-matching fingerprint
`fp1`, a consumer that declines immediately receives exactly the newest
record. -/
theorem mares_consumer_stop_halts_witness :
    mares_darwinair_extract_dives mares_darwinair_layout img2 fp1
      (fun _ _ => false) =
      (DeviceStatus.success,
        (mares_darwinair_extract_dives mares_darwinair_layout img2 fp1 cbTrue).2.take 1) :=
  mares_consumer_stop_halts img2 fp1 (fun _ _ => false) 0
    (by decide) (by decide) (by intro i hi h; omega) (by decide)

/-! ## C1: Scenario 1 on the Darwin Air layout -/

/-- C1.  For every image whose end-of-profile pointer (big-endian word at
`0x8A`) is `0x0CC5`, whose last logbook index (byte at `0x8C`) is `0`, whose
entry 0 holds sample count 10 (word at `0x0106`), and whose entry 49 (the
following entry in the newest-to-oldest walk) holds the unused sentinel
sample count `0xFFFF`, extraction with a non-matching fingerprint delivers
exactly one record of length 90: the 60-byte logbook slot at `0x0100`
followed by the 30 profile bytes logically ending at ring address `0x0CC5` —
25 bytes wrapped from the high end of the ring (`0x3FE6 ..`) followed by the
5 bytes from `rb_profile_begin` (`0x0CC0 ..`). -/
theorem mares_scenario1_single_record (dat : Img) (fp : List (Fin 256))
    (h8A : array_uint16_be dat 0x8A = 0x0CC5)
    (h8C : (dat 0x8C).val = 0)
    (hn0 : array_uint16_be dat 0x0106 = 10)
    (hn49 : array_uint16_be dat 0x0C82 = 0xFFFF)
    (hfp : readBytes dat 0x0100 6 ≠ fp) :
    mares_darwinair_extract_dives mares_darwinair_layout dat fp cbTrue =
      (DeviceStatus.success,
        [readBytes dat 0x0100 60 ++ (readBytes dat 0x3FE6 25 ++ readBytes dat 0x0CC0 5)]) ∧
    (readBytes dat 0x0100 60 ++ (readBytes dat 0x3FE6 25 ++ readBytes dat 0x0CC0 5)).length
      = 90 := by
  constructor
  · have hlb0 : lbOffset mares_darwinair_layout 0 0 = 0x0100 := by
      simp [lbOffset, darwin_count, darwin_lboff, darwin_lbsize]
    have hlb1 : lbOffset mares_darwinair_layout 0 1 = 0x0C7C := by
      norm_num [lbOffset, darwin_count, darwin_lboff, darwin_lbsize]
    have hns0 : maresNsamples mares_darwinair_layout dat 0 0 = 10 := by
      rw [maresNsamples, hlb0]
      exact hn0
    have hns1 : maresNsamples mares_darwinair_layout dat 0 1 = 0xFFFF := by
      rw [maresNsamples, hlb1]
      exact hn49
    have hdl0 : diveLength mares_darwinair_layout dat 0 0 = 30 := by
      rw [diveLength, hns0, darwin_ss]
    have hrec : maresRecord mares_darwinair_layout dat 0 0 0x0CC5 =
        readBytes dat 0x0100 60 ++ (readBytes dat 0x3FE6 25 ++ readBytes dat 0x0CC0 5) := by
      rw [maresRecord, maresProfile, hdl0, hlb0, darwin_lbsize, darwin_pb, darwin_pe]
      norm_num
    have htake : (maresRecord mares_darwinair_layout dat 0 0 0x0CC5).take 6 =
        readBytes dat 0x0100 6 := by
      rw [hrec, List.take_append_eq_append_take, readBytes_length, readBytes_take]
      norm_num
    have hnext : maresNext mares_darwinair_layout dat 0 0 0x0CC5 = 0x3FE6 := by
      rw [maresNext, hdl0, darwin_pb, darwin_pe]
      norm_num
    unfold mares_darwinair_extract_dives
    rw [if_neg (by rw [h8A, darwin_pb, darwin_pe]; norm_num),
      if_neg (by rw [darwin_count, h8C]; norm_num)]
    rw [h8A, h8C, darwin_count, darwin_pb, darwin_pe]
    norm_num
    rw [show (50 : Nat) = 49 + 1 from rfl, maresLoop]
    rw [if_neg (by rw [hns0, hdl0]; norm_num), if_neg (by rw [htake]; exact hfp)]
    rw [if_pos (show cbTrue 0 (maresRecord mares_darwinair_layout dat 0 0 3269) = true from rfl)]
    rw [hdl0, hnext]
    norm_num
    rw [show (49 : Nat) = 48 + 1 from rfl, maresLoop]
    rw [if_pos (Or.inl hns1)]
    rw [hrec]
    exact ⟨rfl, rfl⟩
  · simp [readBytes_length]

/-- Witness for C1 on the concrete Scenario 1 image. -/
theorem mares_scenario1_single_record_witness :
    mares_darwinair_extract_dives mares_darwinair_layout img1 fp1 cbTrue =
      (DeviceStatus.success,
        [readBytes img1 0x0100 60 ++ (readBytes img1 0x3FE6 25 ++ readBytes img1 0x0CC0 5)]) ∧
    (readBytes img1 0x0100 60 ++ (readBytes img1 0x3FE6 25 ++ readBytes img1 0x0CC0 5)).length
      = 90 :=
  mares_scenario1_single_record img1 fp1 (by decide) (by decide) (by decide)
    (by decide) (by decide)

/-! ## C10: loop invariants of the Darwin Air extractor -/

theorem profSum_nil (l : mares_darwinair_layout_t) : profSum l [] = 0 := rfl

theorem profSum_cons (l : mares_darwinair_layout_t) (r : List (Fin 256))
    (rest : List (List (Fin 256))) :
    profSum l (r :: rest) = (r.length - l.rb_logbook_size) + profSum l rest := by
  simp [profSum]

theorem lbOffset_range (last i : Nat) :
    0x0100 ≤ lbOffset mares_darwinair_layout last i ∧
    lbOffset mares_darwinair_layout last i + 60 ≤ 0x0100 + 50 * 60 := by
  have hidx : (50 + last - i) % 50 < 50 := Nat.mod_lt _ (by norm_num)
  rw [lbOffset, darwin_count, darwin_lboff, darwin_lbsize]
  omega

theorem maresRecord_length (dat : Img) (last i cur : Nat) (h : 0x0CC0 ≤ cur) :
    (maresRecord mares_darwinair_layout dat last i cur).length =
      60 + diveLength mares_darwinair_layout dat last i := by
  rw [maresRecord, maresProfile, darwin_lbsize, darwin_pb, darwin_pe]
  split_ifs with hw
  · simp only [List.length_append, readBytes_length]
    omega
  · simp only [List.length_append, readBytes_length]

theorem maresNext_bounds (dat : Img) (last i cur : Nat)
    (hc1 : 0x0CC0 ≤ cur) (hc2 : cur ≤ 0x3FFF)
    (hlen : diveLength mares_darwinair_layout dat last i ≤ 0x333F) :
    0x0CC0 ≤ maresNext mares_darwinair_layout dat last i cur ∧
    maresNext mares_darwinair_layout dat last i cur ≤ 0x3FFF := by
  rw [maresNext, darwin_pb, darwin_pe]
  split_ifs with hw
  · omega
  · omega

theorem maresLoop_profSum_le (dat : Img) (fp : List (Fin 256))
    (cb : Nat → List (Fin 256) → Bool) (last : Nat) :
    ∀ fuel i rem cur d, 0x0CC0 ≤ cur → cur ≤ 0x3FFF → rem ≤ 0x333F →
      profSum mares_darwinair_layout
        (maresLoop mares_darwinair_layout dat fp cb last fuel i rem cur d) ≤ rem ∧
      ∀ r ∈ maresLoop mares_darwinair_layout dat fp cb last fuel i rem cur d,
        60 ≤ r.length := by
  intro fuel
  induction fuel with
  | zero =>
    intro i rem cur d h1 h2 h3
    rw [maresLoop]
    exact ⟨by simp [profSum_nil], by simp⟩
  | succ fuel ih =>
    intro i rem cur d h1 h2 h3
    rw [maresLoop]
    by_cases hs : maresNsamples mares_darwinair_layout dat last i = 0xFFFF ∨
        rem < diveLength mares_darwinair_layout dat last i
    · rw [if_pos hs]
      exact ⟨by simp [profSum_nil], by simp⟩
    · rw [if_neg hs]
      have hlen : diveLength mares_darwinair_layout dat last i ≤ rem := by
        omega
      have hreclen := maresRecord_length dat last i cur h1
      by_cases hfp : (maresRecord mares_darwinair_layout dat last i cur).take 6 = fp
      · rw [if_pos hfp]
        exact ⟨by simp [profSum_nil], by simp⟩
      · rw [if_neg hfp]
        by_cases hcb : cb d (maresRecord mares_darwinair_layout dat last i cur)
        · rw [if_pos hcb]
          have hnb := maresNext_bounds dat last i cur h1 h2 (by omega)
          have hrec := ih (i + 1) (rem - diveLength mares_darwinair_layout dat last i)
            (maresNext mares_darwinair_layout dat last i cur) (d + 1)
            hnb.1 hnb.2 (by omega)
          constructor
          · rw [profSum_cons, darwin_lbsize, hreclen]
            omega
          · intro r hr
            rcases List.mem_cons.mp hr with hre | hrm
            · rw [hre, hreclen]
              omega
            · exact hrec.2 r hrm
        · rw [if_neg hcb]
          constructor
          · rw [profSum_cons, profSum_nil, darwin_lbsize, hreclen]
            omega
          · intro r hr
            rcases List.mem_cons.mp hr with hre | hrm
            · rw [hre, hreclen]
              omega
            · simp at hrm

theorem maresNsamples_congr (dat dat2 : Img) (hag : maresAgree dat dat2)
    (last i : Nat) :
    maresNsamples mares_darwinair_layout dat2 last i =
      maresNsamples mares_darwinair_layout dat last i := by
  have hr := lbOffset_range last i
  rw [maresNsamples, maresNsamples, array_uint16_be, array_uint16_be]
  rw [← hag (lbOffset mares_darwinair_layout last i + 6) (by right; left; omega),
    ← hag (lbOffset mares_darwinair_layout last i + 6 + 1) (by right; left; omega)]

set_option maxRecDepth 4000 in
theorem maresRecord_congr (dat dat2 : Img) (hag : maresAgree dat dat2)
    (last i cur rem : Nat) (hc1 : 0x0CC0 ≤ cur) (hc2 : cur ≤ 0x3FFF)
    (hlen : diveLength mares_darwinair_layout dat last i ≤ rem) (hrem : rem ≤ 0x333F) :
    maresRecord mares_darwinair_layout dat2 last i cur =
      maresRecord mares_darwinair_layout dat last i cur := by
  have hr := lbOffset_range last i
  have hdl : diveLength mares_darwinair_layout dat2 last i =
      diveLength mares_darwinair_layout dat last i := by
    rw [diveLength, diveLength, maresNsamples_congr dat dat2 hag]
  rw [maresRecord, maresRecord, maresProfile, maresProfile, hdl,
    darwin_lbsize, darwin_pb, darwin_pe]
  have hlb : readBytes dat2 (lbOffset mares_darwinair_layout last i) 60 =
      readBytes dat (lbOffset mares_darwinair_layout last i) 60 := by
    apply readBytes_congr
    intro k hk
    exact (hag (lbOffset mares_darwinair_layout last i + k) (by right; left; omega)).symm
  rw [hlb]
  split_ifs with hw
  · have e1 : readBytes dat2
        (16383 - (diveLength mares_darwinair_layout dat last i - (cur - 3264)))
        (diveLength mares_darwinair_layout dat last i - (cur - 3264)) =
        readBytes dat
        (16383 - (diveLength mares_darwinair_layout dat last i - (cur - 3264)))
        (diveLength mares_darwinair_layout dat last i - (cur - 3264)) := by
      apply readBytes_congr
      intro k hk
      refine (hag _ ?_).symm
      right; right
      omega
    have e2 : readBytes dat2 3264 (cur - 3264) = readBytes dat 3264 (cur - 3264) := by
      apply readBytes_congr
      intro k hk
      refine (hag _ ?_).symm
      right; right
      omega
    rw [e1, e2]
  · have e3 : readBytes dat2 (cur - diveLength mares_darwinair_layout dat last i)
        (diveLength mares_darwinair_layout dat last i) =
        readBytes dat (cur - diveLength mares_darwinair_layout dat last i)
        (diveLength mares_darwinair_layout dat last i) := by
      apply readBytes_congr
      intro k hk
      refine (hag _ ?_).symm
      right; right
      omega
    rw [e3]

theorem maresLoop_congr (dat dat2 : Img) (hag : maresAgree dat dat2)
    (fp : List (Fin 256)) (cb : Nat → List (Fin 256) → Bool) (last : Nat) :
    ∀ fuel i rem cur d, 0x0CC0 ≤ cur → cur ≤ 0x3FFF → rem ≤ 0x333F →
      maresLoop mares_darwinair_layout dat2 fp cb last fuel i rem cur d =
        maresLoop mares_darwinair_layout dat fp cb last fuel i rem cur d := by
  intro fuel
  induction fuel with
  | zero => intro i rem cur d h1 h2 h3; rfl
  | succ fuel ih =>
    intro i rem cur d h1 h2 h3
    rw [maresLoop, maresLoop]
    have hns := maresNsamples_congr dat dat2 hag last i
    have hdl : diveLength mares_darwinair_layout dat2 last i =
        diveLength mares_darwinair_layout dat last i := by
      rw [diveLength, diveLength, hns]
    by_cases hs : maresNsamples mares_darwinair_layout dat last i = 0xFFFF ∨
        rem < diveLength mares_darwinair_layout dat last i
    · rw [if_pos (by rw [hns, hdl]; exact hs), if_pos hs]
    · rw [if_neg (by rw [hns, hdl]; exact hs), if_neg hs]
      rcases not_or.mp hs with ⟨hs1, hs2⟩
      have hlen : diveLength mares_darwinair_layout dat last i ≤ rem := by omega
      have hrec := maresRecord_congr dat dat2 hag last i cur rem h1 h2 hlen h3
      have hnx : maresNext mares_darwinair_layout dat2 last i cur =
          maresNext mares_darwinair_layout dat last i cur := by
        rw [maresNext, maresNext, hdl]
      rw [hrec, hdl, hnx]
      by_cases hfp : (maresRecord mares_darwinair_layout dat last i cur).take 6 = fp
      · rw [if_pos hfp, if_pos hfp]
      · rw [if_neg hfp, if_neg hfp]
        by_cases hcb : cb d (maresRecord mares_darwinair_layout dat last i cur)
        · rw [if_pos hcb, if_pos hcb]
          have hnb := maresNext_bounds dat last i cur h1 h2 (by omega)
          rw [ih (i + 1) (rem - diveLength mares_darwinair_layout dat last i)
            (maresNext mares_darwinair_layout dat last i cur) (d + 1)
            hnb.1 hnb.2 (by omega)]
        · rw [if_neg hcb, if_neg hcb]

/-- C10.  Once the end-of-profile pointer and last-index validation has
succeeded, the Darwin Air extraction maintains its cursor invariants:
(1) the total profile bytes delivered over one pass never exceed
`rb_profile_end - rb_profile_begin` (each dive's profile length is charged
against `remaining`, which never underflows because the loop breaks when
`length > remaining`); (2) every delivered record carries at least the full
60-byte logbook slot; (3) every byte the pass reads lies in the control
words `0x8A ..0x8C`, the logbook ring, or the profile ring `[0x0CC0, 0x3FFF)`
— extraction is unchanged under arbitrary modification of every other byte
of the image, which also shows the loop keeps `rb_profile_begin ≤ current ≤
rb_profile_end` so all profile copies read inside the ring. -/
theorem mares_extract_invariants (dat : Img) (fp : List (Fin 256))
    (cb : Nat → List (Fin 256) → Bool)
    (hsucc : (mares_darwinair_extract_dives mares_darwinair_layout dat fp cb).1 =
      DeviceStatus.success) :
    profSum mares_darwinair_layout
      (mares_darwinair_extract_dives mares_darwinair_layout dat fp cb).2 ≤
      0x3FFF - 0x0CC0 ∧
    (∀ r ∈ (mares_darwinair_extract_dives mares_darwinair_layout dat fp cb).2,
      60 ≤ r.length) ∧
    ∀ dat2, maresAgree dat dat2 →
      mares_darwinair_extract_dives mares_darwinair_layout dat2 fp cb =
        mares_darwinair_extract_dives mares_darwinair_layout dat fp cb := by
  by_cases hcond1 : (array_uint16_be dat 0x8A < mares_darwinair_layout.rb_profile_begin ∨
      mares_darwinair_layout.rb_profile_end ≤ array_uint16_be dat 0x8A)
  · unfold mares_darwinair_extract_dives at hsucc
    rw [if_pos hcond1] at hsucc
    exact absurd hsucc (by decide)
  by_cases hcond2 : (mares_darwinair_layout.rb_logbook_count ≤ (dat 0x8C).val)
  · unfold mares_darwinair_extract_dives at hsucc
    rw [if_neg hcond1, if_pos hcond2] at hsucc
    exact absurd hsucc (by decide)
  have heop : 0x0CC0 ≤ array_uint16_be dat 0x8A ∧ array_uint16_be dat 0x8A < 0x3FFF := by
    rw [darwin_pb, darwin_pe] at hcond1
    omega
  have hE2 : (mares_darwinair_extract_dives mares_darwinair_layout dat fp cb).2 =
      maresLoop mares_darwinair_layout dat fp cb (dat 0x8C).val
        mares_darwinair_layout.rb_logbook_count 0
        (mares_darwinair_layout.rb_profile_end - mares_darwinair_layout.rb_profile_begin)
        (array_uint16_be dat 0x8A) 0 := by
    unfold mares_darwinair_extract_dives
    rw [if_neg hcond1, if_neg hcond2]
  have hinv := maresLoop_profSum_le dat fp cb (dat 0x8C).val
    mares_darwinair_layout.rb_logbook_count 0
    (mares_darwinair_layout.rb_profile_end - mares_darwinair_layout.rb_profile_begin)
    (array_uint16_be dat 0x8A) 0 heop.1 (by omega) (by decide)
  refine ⟨?_, ?_, ?_⟩
  · rw [hE2]
    have h1 := hinv.1
    have hde : mares_darwinair_layout.rb_profile_end -
        mares_darwinair_layout.rb_profile_begin = 0x3FFF - 0x0CC0 := by decide
    omega
  · rw [hE2]
    exact hinv.2
  · intro dat2 hag2
    have h8A2 : array_uint16_be dat2 0x8A = array_uint16_be dat 0x8A := by
      rw [array_uint16_be, array_uint16_be,
        ← hag2 0x8A (by left; omega)]
      rw [show (0x8A : Nat) + 1 = 0x8B from rfl, ← hag2 0x8B (by left; omega)]
    have h8C2 : dat2 0x8C = dat 0x8C := (hag2 0x8C (by left; omega)).symm
    unfold mares_darwinair_extract_dives
    rw [h8A2, h8C2]
    rw [if_neg hcond1, if_neg hcond1, if_neg hcond2, if_neg hcond2]
    exact congrArg (fun t => (DeviceStatus.success, t))
      (maresLoop_congr dat dat2 hag2 fp cb (dat 0x8C).val
        mares_darwinair_layout.rb_logbook_count 0
        (mares_darwinair_layout.rb_profile_end - mares_darwinair_layout.rb_profile_begin)
        (array_uint16_be dat 0x8A) 0 heop.1 (by omega) (by decide))

/-- Witness for C10 on the Scenario 1 image. -/
theorem mares_extract_invariants_witness :
    profSum mares_darwinair_layout
      (mares_darwinair_extract_dives mares_darwinair_layout img1 fp1 cbTrue).2 ≤
      0x3FFF - 0x0CC0 ∧
    (∀ r ∈ (mares_darwinair_extract_dives mares_darwinair_layout img1 fp1 cbTrue).2,
      60 ≤ r.length) ∧
    ∀ dat2, maresAgree img1 dat2 →
      mares_darwinair_extract_dives mares_darwinair_layout dat2 fp1 cbTrue =
        mares_darwinair_extract_dives mares_darwinair_layout img1 fp1 cbTrue :=
  mares_extract_invariants img1 fp1 cbTrue (by decide)
